import Mathlib

/-!
Verification of the `espeak-phonemizer` post-processing pipeline and engine
session, shallowly embedded from the Python sources.  Python strings are
modelled as `List Char`; the libespeak-ng engine is an opaque oracle record;
`phonemize` is a pure function returning the result, the mutated session
state, the engine's active voice and the ordered trace of engine calls.

Two variants of `Phonemizer.phonemize` exist in the repository and both are
embedded:
* `phonemizeInit` — `espeak_phonemizer/__init__.py` (legacy variant);
* `phonemizeUtil` — `espeak_phonemizer/util_espeak_ng_phonemizer.py`
  (refactored variant with subclass strategies and dual-mode voice dispatch).
-/

namespace EP

/-- Python `str`, modelled as a list of characters. -/
abbrev PyStr := List Char

/-- The Python exception classes that the embedded code can raise. -/
inductive PyErr where
  | valueError
  | assertionError
  | runtimeError
  | typeError
  | attributeError
deriving DecidableEq, Repr

/-- `StreamType` enum (`MEMORY = "memory"`, `NONE = "none"`), shared by both
source files. -/
inductive StreamType where
  | memory
  | none
deriving DecidableEq, Repr

/-- Mutable attributes of a `Phonemizer` object.  `initialized` stands for
`self.lib_espeak` (and `self.libc`) being loaded; `stream_type` is the
`stream_type` attribute of the legacy variant, respectively the value of
`is_a()` of the util variant's concrete subclass. -/
structure SessionState where
  current_voice : Option PyStr
  default_voice : Option PyStr
  clause_breakers : List Char
  stream_type : StreamType
  initialized : Bool
deriving DecidableEq, Repr

/-- One call issued to libespeak-ng, recorded in order. -/
inductive EngineCall where
  | initEngine
  | setVoiceByName (v : PyStr)
  | setVoiceByFile (v : PyStr)
  | setPhonemeTrace (flags : Nat)
  | synth (flags : Nat)
  | textToPhonemes (flags : Nat)
deriving DecidableEq, Repr

/-- The opaque engine capability: statuses and raw phoneme output as pure
functions of the request (and of the engine's currently active voice). -/
structure Engine where
  sampleRate : Int
  voiceNameStatus : PyStr → Int
  voiceFileStatus : PyStr → Int
  /-- Contents of the in-memory phoneme-trace stream after `espeak_Synth`,
  as a function of active voice, text, phoneme flags and the SSML bit. -/
  traceOutput : Option PyStr → PyStr → Nat → Bool → PyStr
  /-- The successive non-null results of `espeak_TextToPhonemes`, as a
  function of active voice, text and phoneme flags. -/
  clauseOutputs : Option PyStr → PyStr → Nat → List PyStr

/-- Filesystem-dependent path operations used by the util variant's voice
dispatch (`Path(voice).expanduser()` / `.resolve()`).  `expanduser` returns
`Option.none` when the Python call raises. -/
structure Os where
  expanduser : PyStr → Option PyStr
  resolve : PyStr → PyStr

/-- Result of one `phonemize` call: the returned string or raised exception,
the session state afterwards, the engine's active voice afterwards, and the
ordered list of engine calls issued. -/
structure Outcome where
  result : Except PyErr PyStr
  state : SessionState
  engineVoice : Option PyStr
  calls : List EngineCall

-- ---------------------------------------------------------------------------
-- Constants from the Python classes
-- ---------------------------------------------------------------------------

def EE_OK : Int := 0
def AUDIO_OUTPUT_SYNCHRONOUS : Nat := 0x02
def espeakPHONEMES_IPA : Nat := 0x02
def espeakCHARS_AUTO : Nat := 0
def espeakSSML : Nat := 0x10
def espeakPHONEMES : Nat := 0x100

/-- `DEFAULT_CLAUSE_BREAKERS = {",", ";", ":", ".", "!", "?"}`. -/
def DEFAULT_CLAUSE_BREAKERS : List Char := [',', ';', ':', '.', '!', '?']

-- ---------------------------------------------------------------------------
-- Models of the Python builtins used by the pipeline
-- ---------------------------------------------------------------------------

/-- Truthiness of an optional Python string: `None` and `""` are falsy. -/
def pyTruthy : Option PyStr → Bool
  | Option.none => false
  | some s => !s.isEmpty

/-- Python `a or b` on optional strings: `b` whenever `a` is falsy. -/
def pyOrStr (a b : Option PyStr) : Option PyStr :=
  if pyTruthy a then a else b

/-- Whitespace for `str.strip` / `str.split` (the ASCII whitespace class). -/
def pyIsSpace (c : Char) : Bool :=
  c = ' ' || c = '\t' || c = '\n' || c = '\r' || c = Char.ofNat 11 || c = Char.ofNat 12

/-- Python `str.strip()`: drop leading and trailing whitespace. -/
def pyStrip (s : PyStr) : PyStr :=
  ((s.dropWhile pyIsSpace).reverse.dropWhile pyIsSpace).reverse

/-- Helper for `pySplitWs`; the accumulator holds the current word reversed. -/
def pySplitWsAux : PyStr → PyStr → List PyStr
  | [], acc => if acc.isEmpty then [] else [acc.reverse]
  | c :: rest, acc =>
    if pyIsSpace c then
      if acc.isEmpty then pySplitWsAux rest []
      else acc.reverse :: pySplitWsAux rest []
    else pySplitWsAux rest (c :: acc)

/-- Python `str.split()` with no argument: split on runs of whitespace,
discarding empty pieces. -/
def pySplitWs (s : PyStr) : List PyStr := pySplitWsAux s []

/-- Helper for `pySplitlines`; the accumulator holds the current line
reversed. -/
def pySplitlinesAux : PyStr → PyStr → List PyStr
  | [], acc => if acc.isEmpty then [] else [acc.reverse]
  | '\r' :: '\n' :: rest, acc => acc.reverse :: pySplitlinesAux rest []
  | '\r' :: rest, acc => acc.reverse :: pySplitlinesAux rest []
  | '\n' :: rest, acc => acc.reverse :: pySplitlinesAux rest []
  | c :: rest, acc => pySplitlinesAux rest (c :: acc)

/-- Python `str.splitlines()` restricted to the line breaks the trace stream
can contain (`\n`, `\r`, `\r\n`); no trailing empty line for a final break. -/
def pySplitlines (s : PyStr) : List PyStr := pySplitlinesAux s []

/-- Python `sep.join(pieces)`. -/
def joinSep (sep : PyStr) : List PyStr → PyStr
  | [] => []
  | [l] => l
  | l :: ls => l ++ sep ++ joinSep sep ls

/-- Python `ord(s)`: code point of a one-character string, `TypeError`
otherwise. -/
def pyOrd : PyStr → Except PyErr Nat
  | [c] => .ok c.toNat
  | _ => .error .typeError

/-- Scan to just past the first `')'`, or `Option.none` if there is none.
Used to model one match of the regex `\([^)]*\)`. -/
def dropThroughClose : PyStr → Option PyStr
  | [] => Option.none
  | ')' :: rest => some rest
  | _ :: rest => dropThroughClose rest

/-- Fuel-indexed worker for `langSwitchSub`; the fuel only ever needs to be
the length of the string, so the `0` case is unreachable. -/
def langSwitchSubAux : Nat → PyStr → PyStr
  | 0, s => s
  | _ + 1, [] => []
  | fuel + 1, c :: rest =>
    if c = '(' then
      match dropThroughClose rest with
      | some after => langSwitchSubAux fuel after
      | Option.none => c :: rest
    else c :: langSwitchSubAux fuel rest

/-- `LANG_SWITCH_FLAG.sub("", s)` for `LANG_SWITCH_FLAG = re.compile(r"\([^)]*\)")`:
remove every parenthesized language-switch annotation, matching non-overlapping
occurrences left to right. -/
def langSwitchSub (s : PyStr) : PyStr := langSwitchSubAux s.length s

/-- `STRESS_PATTERN.sub("", s)` for `STRESS_PATTERN = re.compile(r"[ˈˌ]")`:
remove every primary and secondary stress mark. -/
def stressSub (s : PyStr) : PyStr :=
  s.filter (fun c => !(c = 'ˈ' || c = 'ˌ'))

/-- Worker for `collapseSep`; the boolean records whether the previous kept
character closed a separator run. -/
def collapseSepAux (sep : PyStr) : PyStr → Bool → PyStr
  | [], _ => []
  | c :: rest, inRun =>
    if c ∈ sep then
      if inRun then collapseSepAux sep rest true
      else sep ++ collapseSepAux sep rest true
    else c :: collapseSepAux sep rest false

/-- `re.sub("[" + re.escape(sep) + "]+", sep, s)`: collapse every maximal run
of characters of `sep` into a single copy of `sep`. -/
def collapseSep (sep : PyStr) (s : PyStr) : PyStr := collapseSepAux sep s false

/-- `PurePosixPath.is_absolute()`: the path has a root. -/
def isAbsolutePath : PyStr → Bool
  | '/' :: _ => true
  | _ => false

-- ---------------------------------------------------------------------------
-- Phoneme-mode flag packing (duplicated verbatim at several source sites)
-- ---------------------------------------------------------------------------

/-- Flag computation of `__init__.py` lines 105-107 (recomputed identically at
lines 165-167 and 196-198):
`flags = espeakPHONEMES_IPA; if sep: flags |= ord(sep) << 8`. -/
def phonemeFlagsInit (sep : Option PyStr) : Except PyErr Nat :=
  if pyTruthy sep then
    match pyOrd (sep.getD []) with
    | .ok n => .ok (espeakPHONEMES_IPA ||| (n <<< 8))
    | .error e => .error e
  else .ok espeakPHONEMES_IPA

/-- Flag computation of `PhonemizerMemoryStream._phonemize`
(`util_espeak_ng_phonemizer.py` lines 289-291). -/
def phonemeFlagsMemStream (sep : Option PyStr) : Except PyErr Nat :=
  if pyTruthy sep then
    match pyOrd (sep.getD []) with
    | .ok n => .ok (espeakPHONEMES_IPA ||| (n <<< 8))
    | .error e => .error e
  else .ok espeakPHONEMES_IPA

/-- Flag computation of `PhonemizerNoStream._phonemize`
(`util_espeak_ng_phonemizer.py` lines 340-342). -/
def phonemeFlagsNoStream (sep : Option PyStr) : Except PyErr Nat :=
  if pyTruthy sep then
    match pyOrd (sep.getD []) with
    | .ok n => .ok (espeakPHONEMES_IPA ||| (n <<< 8))
    | .error e => .error e
  else .ok espeakPHONEMES_IPA

-- ---------------------------------------------------------------------------
-- Raw-phoneme extraction strategies
-- ---------------------------------------------------------------------------

/-- The captured-stream strategy (`_phonemize_mem_stream` of `__init__.py`,
`PhonemizerMemoryStream._phonemize` of the util module): install a phoneme
trace, synthesize, read back the stream and split it into lines.  Returns the
clause lines and the engine calls issued. -/
def memStreamExtract (eng : Engine) (ev : Option PyStr) (text : PyStr)
    (phoneme_separator : Option PyStr) (ssml : Bool) :
    Except PyErr (List PyStr × List EngineCall) :=
  match phonemeFlagsMemStream phoneme_separator with
  | .error e => .error e
  | .ok flags =>
    let synthFlags :=
      espeakCHARS_AUTO ||| espeakPHONEMES ||| (if ssml then espeakSSML else 0)
    .ok (pySplitlines (eng.traceOutput ev text flags ssml),
         [EngineCall.setPhonemeTrace flags, EngineCall.synth synthFlags])

/-- The direct-call strategy (`_phonemize_no_stream` of `__init__.py`,
`PhonemizerNoStream._phonemize` of the util module): call
`espeak_TextToPhonemes` repeatedly until the text cursor is exhausted; each
non-null return contributes one clause line.  The final null-returning call is
recorded too. -/
def noStreamExtract (eng : Engine) (ev : Option PyStr) (text : PyStr)
    (phoneme_separator : Option PyStr) :
    Except PyErr (List PyStr × List EngineCall) :=
  match phonemeFlagsNoStream phoneme_separator with
  | .error e => .error e
  | .ok flags =>
    let ls := eng.clauseOutputs ev text flags
    .ok (ls, List.replicate (ls.length + 1) (EngineCall.textToPhonemes flags))

-- ---------------------------------------------------------------------------
-- Voice selection
-- ---------------------------------------------------------------------------

/-- Voice selection of the legacy `__init__.py` phonemize (lines 95-99):
no engine call when the requested voice is `None` or equals `current_voice`;
otherwise `current_voice` is assigned first, then `espeak_SetVoiceByName` is
called, and a non-`EE_OK` status raises `AssertionError`.  Returns the new
session state, the engine's active voice, the calls issued, and the raised
exception if any. -/
def initSetVoice (eng : Engine) (st1 : SessionState) (ev : Option PyStr)
    (v : Option PyStr) : SessionState × Option PyStr × List EngineCall × Option PyErr :=
  match v with
  | Option.none => (st1, ev, [], Option.none)
  | some vs =>
    if some vs = st1.current_voice then (st1, ev, [], Option.none)
    else
      let st2 := { st1 with current_voice := some vs }
      if eng.voiceNameStatus vs = EE_OK then
        (st2, some vs, [EngineCall.setVoiceByName vs], Option.none)
      else
        (st2, ev, [EngineCall.setVoiceByName vs], some PyErr.assertionError)

/-- Voice selection of the util variant's phonemize (lines 134-166):
`current_voice` is updated first (net effect: set to the requested voice);
then, for every non-`None` voice, an engine voice change is issued — by file
when `Path(voice).expanduser()` succeeds and is absolute (then resolved), by
name otherwise.  A non-`EE_OK` status is only a logged warning.  Returns the
new session state, the engine's active voice and the calls issued. -/
def utilSetVoice (eng : Engine) (os : Os) (st1 : SessionState) (ev : Option PyStr)
    (v : Option PyStr) : SessionState × Option PyStr × List EngineCall :=
  match v with
  | Option.none => (st1, ev, [])
  | some vs =>
    let st2 :=
      match st1.current_voice with
      | Option.none => { st1 with current_voice := some vs }
      | some cv => if vs = cv then st1 else { st1 with current_voice := some vs }
    match os.expanduser vs with
    | Option.none =>
      if eng.voiceNameStatus vs = EE_OK then
        (st2, some vs, [EngineCall.setVoiceByName vs])
      else (st2, ev, [EngineCall.setVoiceByName vs])
    | some p =>
      if isAbsolutePath p then
        let rp := os.resolve p
        if eng.voiceFileStatus rp = EE_OK then
          (st2, some rp, [EngineCall.setVoiceByFile rp])
        else (st2, ev, [EngineCall.setVoiceByFile rp])
      else
        if eng.voiceNameStatus vs = EE_OK then
          (st2, some vs, [EngineCall.setVoiceByName vs])
        else (st2, ev, [EngineCall.setVoiceByName vs])

-- ---------------------------------------------------------------------------
-- Formatting stages shared verbatim by both phonemize variants
-- ---------------------------------------------------------------------------

/-- `missing_breakers = [c for c in text if c in self.clause_breakers]` when
`keep_clause_breakers and self.clause_breakers`, else `[]`. -/
def missingBreakers (keep : Bool) (breakers : List Char) (text : PyStr) : List Char :=
  if keep && !breakers.isEmpty then text.filter (· ∈ breakers) else []

/-- Language-flag stripping stage: unless retention is requested, apply the
`\([^)]*\)` removal to every clause line. -/
def stripLangFlags (keep : Bool) (lines : List PyStr) : List PyStr :=
  if keep then lines else lines.map langSwitchSub

/-- Word-separator normalization stage: when the word separator is not a
single space, split every clause line on whitespace and rejoin. -/
def normalizeWordSep (ws : PyStr) (lines : List PyStr) : List PyStr :=
  if ws = [' '] then lines else lines.map (fun l => joinSep ws (pySplitWs l))

/-- Clause-breaker reinsertion stage: for each index at which both a clause
line and a collected breaker exist, append the punctuation separator followed
by that breaker to the line; lines past the breaker list are unchanged, and
breakers past the line list are dropped.  (The source's outer
`if missing_breakers:` guard is the `[]` case of the second argument.) -/
def reinsertBreakers (punct : PyStr) : List PyStr → List Char → List PyStr
  | ls, [] => ls
  | [], _ => []
  | l :: ls, b :: bs => (l ++ punct ++ [b]) :: reinsertBreakers punct ls bs

/-- Final stages (lines 138-152 of `__init__.py`, 214-230 of the util module):
join the individually stripped clause lines with the word separator, strip
stress marks if requested, and collapse phoneme-separator runs if a truthy
separator was requested.  No outer strip is applied. -/
def finalStages (word_separator : PyStr) (no_stress : Bool)
    (phoneme_separator : Option PyStr) (lines : List PyStr) : PyStr :=
  let s := joinSep word_separator (lines.map pyStrip)
  let s := if no_stress then stressSub s else s
  if pyTruthy phoneme_separator then collapseSep (phoneme_separator.getD []) s
  else s

-- ---------------------------------------------------------------------------
-- The two phonemize variants
-- ---------------------------------------------------------------------------

/-- Embedding of `Phonemizer.phonemize` from `espeak_phonemizer/__init__.py`
(together with `_maybe_init` and the two strategy methods).  Note that
`_maybe_init` assigns `self.lib_espeak` before asserting on the sample rate,
so `initialized` is set even when initialization fails; `clause_breakers` is
never reassigned, so the pure breaker scan of lines 101-103 is read off the
initial state. -/
def phonemizeInit (eng : Engine) (st : SessionState) (engineVoice : Option PyStr)
    (text : PyStr) (voice : Option PyStr) (keep_clause_breakers : Bool)
    (phoneme_separator : Option PyStr) (word_separator : PyStr)
    (punctuation_separator : PyStr) (keep_language_flags : Bool)
    (no_stress : Bool) (ssml : Bool) : Outcome :=
  if ssml = true ∧ st.stream_type = StreamType.none then
    ⟨.error .valueError, st, engineVoice, []⟩
  else
    let needInit := !st.initialized
    let st1 : SessionState := { st with initialized := true }
    let initCalls : List EngineCall := if needInit then [EngineCall.initEngine] else []
    if needInit = true ∧ eng.sampleRate ≤ 0 then
      ⟨.error .assertionError, st1, engineVoice, initCalls⟩
    else
      let breakers := missingBreakers keep_clause_breakers st.clause_breakers text
      match initSetVoice eng st1 engineVoice (pyOrStr voice st1.default_voice) with
      | (st2, ev1, vCalls, some e) => ⟨.error e, st2, ev1, initCalls ++ vCalls⟩
      | (st2, ev1, vCalls, Option.none) =>
        match phonemeFlagsInit phoneme_separator with
        | .error e => ⟨.error e, st2, ev1, initCalls ++ vCalls⟩
        | .ok _ =>
          let ex :=
            match st2.stream_type with
            | StreamType.memory => memStreamExtract eng ev1 text phoneme_separator ssml
            | StreamType.none => noStreamExtract eng ev1 text phoneme_separator
          match ex with
          | .error e => ⟨.error e, st2, ev1, initCalls ++ vCalls⟩
          | .ok (lines, exCalls) =>
            let lines1 := stripLangFlags keep_language_flags lines
            let lines2 := normalizeWordSep word_separator lines1
            let lines3 := reinsertBreakers punctuation_separator lines2 breakers
            ⟨.ok (finalStages word_separator no_stress phoneme_separator lines3),
             st2, ev1, initCalls ++ vCalls ++ exCalls⟩

/-- Embedding of `Phonemizer.phonemize` from
`espeak_phonemizer/util_espeak_ng_phonemizer.py` (with `_maybe_init` and the
subclass `_phonemize` implementations).  The source's
`punctuation_separator is not None` and `word_separator is not None` guards
are vacuous for the annotated `str` type and are therefore not modelled as
branches. -/
def phonemizeUtil (eng : Engine) (os : Os) (st : SessionState) (engineVoice : Option PyStr)
    (text : PyStr) (voice : Option PyStr) (keep_clause_breakers : Bool)
    (phoneme_separator : Option PyStr) (word_separator : PyStr)
    (punctuation_separator : PyStr) (keep_language_flags : Bool)
    (no_stress : Bool) (ssml : Bool) : Outcome :=
  if ssml = true ∧ st.stream_type = StreamType.none then
    ⟨.error .valueError, st, engineVoice, []⟩
  else
    let needInit := !st.initialized
    let st1 : SessionState := { st with initialized := true }
    let initCalls : List EngineCall := if needInit then [EngineCall.initEngine] else []
    if needInit = true ∧ eng.sampleRate ≤ 0 then
      ⟨.error .runtimeError, st1, engineVoice, initCalls⟩
    else
      let breakers := missingBreakers keep_clause_breakers st.clause_breakers text
      match utilSetVoice eng os st1 engineVoice (pyOrStr voice st1.default_voice) with
      | (st2, ev1, vCalls) =>
        let ex :=
          match st2.stream_type with
          | StreamType.memory => memStreamExtract eng ev1 text phoneme_separator ssml
          | StreamType.none => noStreamExtract eng ev1 text phoneme_separator
        match ex with
        | .error e => ⟨.error e, st2, ev1, initCalls ++ vCalls⟩
        | .ok (lines, exCalls) =>
          let lines1 := stripLangFlags keep_language_flags lines
          let lines2 := normalizeWordSep word_separator lines1
          let lines3 := reinsertBreakers punctuation_separator lines2 breakers
          ⟨.ok (finalStages word_separator no_stress phoneme_separator lines3),
           st2, ev1, initCalls ++ vCalls ++ exCalls⟩

-- ---------------------------------------------------------------------------
-- CLI validation (`__main__.main`, lines 110-115)
-- ---------------------------------------------------------------------------

/-- Embedding of the argument validation in `__main__.main`:
`assert args.voice`; then, if a word separator was supplied (truthy),
`assert args.phoneme_separator.strip()` — which raises `AttributeError` when
the phoneme separator is `None` and `AssertionError` when it strips to empty.
This runs before the `Phonemizer` object is even constructed, hence before
any engine call. -/
def cliValidate (voice : Option PyStr) (word_separator : Option PyStr)
    (phoneme_separator : Option PyStr) : Except PyErr Unit :=
  if !pyTruthy voice then .error .assertionError
  else if pyTruthy word_separator then
    match phoneme_separator with
    | Option.none => .error .attributeError
    | some p => if (pyStrip p).isEmpty then .error .assertionError else .ok ()
  else .ok ()

-- ---------------------------------------------------------------------------
-- Spec-side definition for the voice-dispatch refinement claim
-- ---------------------------------------------------------------------------

/-- The voice dispatch rule as the specification words it (for comparison
with the code's dispatch in `utilSetVoice`): an identifier that resolves to an
existing absolute filesystem path uses the voice-by-file capability
(`Sum.inr`, with the resolved path), every other identifier the voice-by-name
capability (`Sum.inl`).  `pathExists` models filesystem existence, which the
code never consults. -/
def specVoiceDispatch (pathExists : PyStr → Bool) (os : Os) (voice : PyStr) :
    Sum PyStr PyStr :=
  match os.expanduser voice with
  | Option.none => Sum.inl voice
  | some p =>
    if isAbsolutePath p && pathExists p then Sum.inr (os.resolve p)
    else Sum.inl voice

/-- Does an engine call change the voice? -/
def isVoiceCall : EngineCall → Bool
  | .setVoiceByName _ => true
  | .setVoiceByFile _ => true
  | _ => false

/-- Is an engine call a voice-by-file call? -/
def isFileVoiceCall : EngineCall → Bool
  | .setVoiceByFile _ => true
  | _ => false

/-- Is an `Except` a success? -/
def exceptIsOk : Except PyErr PyStr → Bool
  | .ok _ => true
  | .error _ => false

-- ---------------------------------------------------------------------------
-- Concrete fixtures used by witnesses and counterexamples
-- ---------------------------------------------------------------------------

/-- A benign engine: positive sample rate, every voice change accepted, a
fixed one-line trace and a fixed single clause. -/
def engFix : Engine :=
  ⟨22050, fun _ => 0, fun _ => 0, fun _ _ _ _ => ['a'], fun _ _ _ => [['a']]⟩

/-- An engine that rejects every voice change. -/
def engFail : Engine :=
  ⟨22050, fun _ => 1, fun _ => 1, fun _ _ _ _ => ['a'], fun _ _ _ => [['a']]⟩

/-- An engine whose memory-stream trace starts with a blank line. -/
def engBlankLine : Engine :=
  ⟨22050, fun _ => 0, fun _ => 0, fun _ _ _ _ => ['\n', 'a'], fun _ _ _ => []⟩

/-- Identity path semantics: `expanduser` succeeds unchanged, `resolve` is the
identity. -/
def osId : Os := ⟨fun s => some s, fun s => s⟩

/-- An initialized captured-stream session with no voice set. -/
def stMem : SessionState :=
  ⟨Option.none, Option.none, DEFAULT_CLAUSE_BREAKERS, StreamType.memory, true⟩

/-- An initialized direct-call session with no voice set. -/
def stNoStream : SessionState :=
  ⟨Option.none, Option.none, DEFAULT_CLAUSE_BREAKERS, StreamType.none, true⟩

/-- An initialized captured-stream session whose current voice is `en-us`. -/
def stMemVoice : SessionState :=
  ⟨some "en-us".toList, Option.none, DEFAULT_CLAUSE_BREAKERS, StreamType.memory, true⟩

-- ---------------------------------------------------------------------------
-- Helper lemmas
-- ---------------------------------------------------------------------------

theorem reinsertBreakers_nil_right (punct : PyStr) (ls : List PyStr) :
    reinsertBreakers punct ls [] = ls := by
  cases ls <;> rfl

theorem reinsertBreakers_nil_left (punct : PyStr) (B : List Char) :
    reinsertBreakers punct [] B = [] := by
  cases B <;> rfl

theorem reinsertBreakers_cons (punct : PyStr) (l : PyStr) (ls : List PyStr)
    (b : Char) (bs : List Char) :
    reinsertBreakers punct (l :: ls) (b :: bs) =
      (l ++ punct ++ [b]) :: reinsertBreakers punct ls bs := rfl

theorem reinsertBreakers_length (punct : PyStr) :
    ∀ (L : List PyStr) (B : List Char),
      (reinsertBreakers punct L B).length = L.length := by
  intro L
  induction L with
  | nil => intro B; rw [reinsertBreakers_nil_left]
  | cons l ls ih =>
    intro B
    cases B with
    | nil => rw [reinsertBreakers_nil_right]
    | cons b bs => rw [reinsertBreakers_cons]; simp [ih bs]

theorem head?_dropWhile_false (p : Char → Bool) (l : List Char) (a : Char)
    (h : (l.dropWhile p).head? = some a) : p a = false := by
  induction l with
  | nil => simp at h
  | cons c cs ih =>
    rw [List.dropWhile_cons] at h
    by_cases hc : p c
    · simp [hc] at h; exact ih h
    · simp [hc] at h; simp [← h, Bool.eq_false_iff.mpr hc]

theorem getLast?_pyStrip (l : PyStr) (a : Char)
    (h : (pyStrip l).getLast? = some a) : pyIsSpace a = false := by
  unfold pyStrip at h
  rw [List.getLast?_reverse] at h
  exact head?_dropWhile_false pyIsSpace _ a h

theorem getLast?_of_all_eq (c : Char) :
    ∀ (l : List Char), (∀ x ∈ l, x = c) → l ≠ [] → l.getLast? = some c := by
  intro l
  induction l with
  | nil => intro _ h; exact absurd rfl h
  | cons x xs ih =>
    intro hall _
    cases xs with
    | nil => simp [hall x (by simp)]
    | cons y ys =>
      rw [List.getLast?_cons_cons]
      exact ih (fun z hz => hall z (by simp [hz])) (by simp)

theorem head?_pyStrip (l : PyStr) (a : Char)
    (h : (pyStrip l).head? = some a) : pyIsSpace a = false := by
  unfold pyStrip at h
  rw [List.head?_reverse] at h
  -- The trailing `dropWhile` yields a suffix of the reversed list, so its
  -- last element is the last element of the reversed list, i.e. the head of
  -- the leading `dropWhile` result.
  obtain ⟨t, ht⟩ :=
    List.dropWhile_suffix (l := (l.dropWhile pyIsSpace).reverse) pyIsSpace
  have hne : (l.dropWhile pyIsSpace).reverse.dropWhile pyIsSpace ≠ [] := by
    intro hnil
    rw [hnil] at h
    simp at h
  have h2 : (l.dropWhile pyIsSpace).head? = some a := by
    rw [← List.getLast?_reverse, ← ht, List.getLast?_append_of_ne_nil t hne]
    exact h
  exact head?_dropWhile_false pyIsSpace l a h2

theorem joinSep_ne_nil (ws l : PyStr) (rest : List PyStr) (hl : l ≠ []) :
    joinSep ws (l :: rest) ≠ [] := by
  cases rest <;> simp [joinSep, hl]

theorem joinSep_head?_mem (ws : PyStr) :
    ∀ (ls : List PyStr) (a : Char), (∀ l ∈ ls, l ≠ []) →
      (joinSep ws ls).head? = some a → ∃ l ∈ ls, l.head? = some a := by
  intro ls a hne h
  cases ls with
  | nil => simp [joinSep] at h
  | cons l rest =>
    cases rest with
    | nil => exact ⟨l, by simp, h⟩
    | cons r rs =>
      have hl : l ≠ [] := hne l (by simp)
      rw [show joinSep ws (l :: r :: rs) = l ++ (ws ++ joinSep ws (r :: rs)) by
            simp [joinSep],
          List.head?_append_of_ne_nil _ hl] at h
      exact ⟨l, by simp, h⟩

theorem joinSep_getLast?_mem (ws : PyStr) :
    ∀ (ls : List PyStr) (a : Char), (∀ l ∈ ls, l ≠ []) →
      (joinSep ws ls).getLast? = some a → ∃ l ∈ ls, l.getLast? = some a := by
  intro ls
  induction ls with
  | nil => intro a _ h; simp [joinSep] at h
  | cons l rest ih =>
    intro a hne h
    cases rest with
    | nil => exact ⟨l, by simp, h⟩
    | cons r rs =>
      have hr : r ≠ [] := hne r (by simp)
      have hJ : joinSep ws (r :: rs) ≠ [] := joinSep_ne_nil ws r rs hr
      have hws : ws ++ joinSep ws (r :: rs) ≠ [] := by
        intro hc; exact hJ (List.append_eq_nil.mp hc).2
      rw [show joinSep ws (l :: r :: rs) = l ++ (ws ++ joinSep ws (r :: rs)) by
            simp [joinSep],
          List.getLast?_append_of_ne_nil _ hws,
          List.getLast?_append_of_ne_nil _ hJ] at h
      obtain ⟨l', hl', hh⟩ := ih a (fun x hx => hne x (by simp [hx])) h
      exact ⟨l', by simp [hl'], hh⟩

theorem collapseSep_head? (c : Char) (s : PyStr) :
    (collapseSep [c] s).head? = s.head? := by
  cases s with
  | nil => rfl
  | cons a r =>
    by_cases h : a = c <;>
      simp [collapseSep, collapseSepAux, h]

theorem collapseSepAux_false_ne_nil (c : Char) (s : PyStr) (hs : s ≠ []) :
    collapseSepAux [c] s false ≠ [] := by
  cases s with
  | nil => exact absurd rfl hs
  | cons a r =>
    by_cases h : a = c <;> simp [collapseSepAux, h]

theorem collapseSepAux_getLast? (c : Char) :
    ∀ (s : PyStr) (b : Bool),
      (collapseSepAux [c] s b).getLast? = s.getLast? ∨
      (collapseSepAux [c] s b = [] ∧ ∀ x ∈ s, x = c) := by
  intro s
  induction s with
  | nil => intro b; left; rfl
  | cons a r ih =>
    intro b
    by_cases hac : a = c
    · subst hac
      cases b with
      | true =>
        have haux : collapseSepAux [a] (a :: r) true = collapseSepAux [a] r true := by
          simp [collapseSepAux]
        rcases ih true with hL | ⟨hnil, hall⟩
        · cases r with
          | nil =>
            right
            exact ⟨by simp [collapseSepAux], by simp⟩
          | cons y ys =>
            left
            rw [haux, hL]
            exact List.getLast?_cons_cons.symm
        · right
          refine ⟨by rw [haux]; exact hnil, ?_⟩
          intro x hx
          rcases List.mem_cons.mp hx with h | h
          · exact h
          · exact hall x h
      | false =>
        have haux : collapseSepAux [a] (a :: r) false =
            a :: collapseSepAux [a] r true := by
          simp [collapseSepAux]
        left
        rw [haux]
        rcases ih true with hL | ⟨hnil, hall⟩
        · cases hX : collapseSepAux [a] r true with
          | nil =>
            rw [hX] at hL
            have hrnil : r = [] := by
              rcases r with _ | ⟨y, ys⟩
              · rfl
              · exfalso
                have h2 : (y :: ys).getLast? = none := hL.symm
                rw [List.getLast?_eq_none_iff] at h2
                exact absurd h2 (by simp)
            subst hrnil
            rfl
          | cons x xs =>
            rw [hX] at hL
            have hr : r ≠ [] := by
              intro hc; subst hc; simp [collapseSepAux] at hX
            rcases r with _ | ⟨y, ys⟩
            · exact absurd rfl hr
            · rw [List.getLast?_cons_cons, List.getLast?_cons_cons]
              exact hL
        · rw [hnil]
          cases r with
          | nil => rfl
          | cons y ys =>
            have hy : (y :: ys).getLast? = some a :=
              getLast?_of_all_eq a (y :: ys) hall (by simp)
            rw [List.getLast?_cons_cons, hy]
            rfl
    · have haux : collapseSepAux [c] (a :: r) b =
          a :: collapseSepAux [c] r false := by
        cases b <;> simp [collapseSepAux, hac]
      left
      rw [haux]
      rcases ih false with hL | ⟨hnil, hall⟩
      · cases hX : collapseSepAux [c] r false with
        | nil =>
          have hrnil : r = [] := by
            rcases r with _ | ⟨y, ys⟩
            · rfl
            · exact absurd hX (collapseSepAux_false_ne_nil c (y :: ys) (by simp))
          subst hrnil
          rfl
        | cons x xs =>
          rw [hX] at hL
          have hr : r ≠ [] := by
            intro hc; subst hc; simp [collapseSepAux] at hX
          rcases r with _ | ⟨y, ys⟩
          · exact absurd rfl hr
          · rw [List.getLast?_cons_cons, List.getLast?_cons_cons]
            exact hL
      · have hrnil : r = [] := by
          rcases r with _ | ⟨y, ys⟩
          · rfl
          · exact absurd hnil (collapseSepAux_false_ne_nil c (y :: ys) (by simp))
        rw [hnil]
        subst hrnil
        rfl

theorem collapseSep_getLast? (c : Char) (s : PyStr) :
    (collapseSep [c] s).getLast? = s.getLast? := by
  rcases collapseSepAux_getLast? c s false with h | ⟨hnil, _⟩
  · exact h
  · have : s = [] := by
      rcases s with _ | ⟨y, ys⟩
      · rfl
      · exact absurd hnil (collapseSepAux_false_ne_nil c (y :: ys) (by simp))
    subst this
    rfl

-- ---------------------------------------------------------------------------
-- Claim theorems
-- ---------------------------------------------------------------------------

/-- Claim C1 (code bug witness): on the util variant, a session whose
`current_voice` already equals the requested voice still issues an engine
voice-change call on `phonemize` — in direct contradiction with the stated
no-op behaviour, which the legacy variant (second conjunct) does implement.
Consequently two consecutive same-voice calls issue two voice-change calls,
not one. -/
theorem c1_same_voice_still_calls_engine :
    ((phonemizeUtil engFix osId stMemVoice (some "en-us".toList) "test".toList
        (some "en-us".toList) false Option.none [' '] [] false false
        false).calls.filter isVoiceCall
      = [EngineCall.setVoiceByName "en-us".toList]) ∧
    ((phonemizeInit engFix stMemVoice (some "en-us".toList) "test".toList
        (some "en-us".toList) false Option.none [' '] [] false false
        false).calls.filter isVoiceCall
      = []) ∧
    stMemVoice.current_voice = some "en-us".toList := by
  exact ⟨rfl, rfl, rfl⟩

/-- Claim C4: an SSML request on a session whose acquisition strategy is the
direct-call one (`StreamType.NONE`) raises `ValueError` before any engine
call, with the session state and the engine voice unchanged — in both
variants. -/
theorem c4_ssml_rejected_before_engine
    (eng : Engine) (os : Os) (st : SessionState) (ev : Option PyStr)
    (text : PyStr) (voice : Option PyStr) (keep : Bool) (sep : Option PyStr)
    (ws punct : PyStr) (kl ns : Bool)
    (h : st.stream_type = StreamType.none) :
    phonemizeInit eng st ev text voice keep sep ws punct kl ns true =
      ⟨.error .valueError, st, ev, []⟩ ∧
    phonemizeUtil eng os st ev text voice keep sep ws punct kl ns true =
      ⟨.error .valueError, st, ev, []⟩ := by
  constructor <;> simp [phonemizeInit, phonemizeUtil, h]

/-- Witness for C4 at a concrete direct-call session. -/
theorem c4_witness :
    phonemizeInit engFix stNoStream Option.none ['x'] Option.none false
      Option.none [' '] [] false false true =
      ⟨.error .valueError, stNoStream, Option.none, []⟩ ∧
    phonemizeUtil engFix osId stNoStream Option.none ['x'] Option.none false
      Option.none [' '] [] false false true =
      ⟨.error .valueError, stNoStream, Option.none, []⟩ :=
  c4_ssml_rejected_before_engine engFix osId stNoStream Option.none ['x']
    Option.none false Option.none [' '] [] false false rfl

/-- Claim C5: the breaker-reinsertion stage appends exactly the punctuation
separator followed by the i-th collected breaker to the i-th clause string,
for every index below the minimum of the two lengths, leaves every later
clause string unchanged, and never changes the number of clause strings; and,
when retention is on and the breaker set is non-empty, the collected breakers
are exactly the breaker characters of the original text in order. -/
theorem c5_breaker_reinsertion :
    (∀ (punct : PyStr) (L : List PyStr) (B : List Char),
      (reinsertBreakers punct L B).length = L.length) ∧
    (∀ (punct : PyStr) (L : List PyStr) (B : List Char) (i : Nat),
      (reinsertBreakers punct L B).getD i [] =
        if i < L.length ∧ i < B.length then
          (L.getD i []) ++ punct ++ [B.getD i ' ']
        else L.getD i []) ∧
    (∀ (c : Char) (br : List Char) (text : PyStr),
      missingBreakers true (c :: br) text = text.filter (· ∈ c :: br)) := by
  refine ⟨reinsertBreakers_length, ?_, ?_⟩
  · intro punct L
    induction L with
    | nil =>
      intro B i
      rw [reinsertBreakers_nil_left]
      simp
    | cons l ls ih =>
      intro B i
      cases B with
      | nil =>
        rw [reinsertBreakers_nil_right]
        simp
      | cons b bs =>
        rw [reinsertBreakers_cons]
        cases i with
        | zero => simp
        | succ n =>
          rw [List.getD_cons_succ, List.getD_cons_succ, List.getD_cons_succ,
            ih bs n]
          simp [Nat.succ_lt_succ_iff]
  · intro c br text
    simp [missingBreakers]

/-- Claim C10: the empty-string phoneme separator behaves exactly like an
absent one, in both variants: same returned string, same state, same engine
voice, same engine calls (in particular the same phoneme-mode flags). -/
theorem c10_empty_separator_like_none
    (eng : Engine) (os : Os) (st : SessionState) (ev : Option PyStr)
    (text : PyStr) (voice : Option PyStr) (keep : Bool)
    (ws punct : PyStr) (kl ns ssml : Bool) :
    phonemizeUtil eng os st ev text voice keep (some []) ws punct kl ns ssml =
      phonemizeUtil eng os st ev text voice keep Option.none ws punct kl ns ssml ∧
    phonemizeInit eng st ev text voice keep (some []) ws punct kl ns ssml =
      phonemizeInit eng st ev text voice keep Option.none ws punct kl ns ssml := by
  exact ⟨rfl, rfl⟩

/-- Claim C9: the phoneme-mode flag is computed identically at every source
site (legacy phonemize level, captured-stream strategy, direct-call strategy);
for a requested separator character `c` it equals
`espeakPHONEMES_IPA ||| (codepoint c <<< 8)`, and with no separator it is
exactly `espeakPHONEMES_IPA`; and that value is the flag carried by every
phoneme-trace installation and every text-to-phonemes call the strategies
issue. -/
theorem c9_phoneme_flag_packing :
    (∀ sep, phonemeFlagsInit sep = phonemeFlagsMemStream sep ∧
        phonemeFlagsMemStream sep = phonemeFlagsNoStream sep) ∧
    (∀ c : Char,
      phonemeFlagsMemStream (some [c]) =
        .ok (espeakPHONEMES_IPA ||| (c.toNat <<< 8))) ∧
    (phonemeFlagsMemStream Option.none = .ok espeakPHONEMES_IPA) ∧
    (∀ (eng : Engine) (ev : Option PyStr) (text : PyStr) (c : Char)
        (ssml : Bool) (lines : List PyStr) (calls : List EngineCall) (f : Nat),
      memStreamExtract eng ev text (some [c]) ssml = .ok (lines, calls) →
      EngineCall.setPhonemeTrace f ∈ calls →
      f = espeakPHONEMES_IPA ||| (c.toNat <<< 8)) ∧
    (∀ (eng : Engine) (ev : Option PyStr) (text : PyStr) (c : Char)
        (lines : List PyStr) (calls : List EngineCall) (f : Nat),
      noStreamExtract eng ev text (some [c]) = .ok (lines, calls) →
      EngineCall.textToPhonemes f ∈ calls →
      f = espeakPHONEMES_IPA ||| (c.toNat <<< 8)) := by
  refine ⟨fun sep => ⟨rfl, rfl⟩, fun c => rfl, rfl, ?_, ?_⟩
  · intro eng ev text c ssml lines calls f hok hmem
    have hcalls : calls =
        [EngineCall.setPhonemeTrace (espeakPHONEMES_IPA ||| (c.toNat <<< 8)),
         EngineCall.synth (espeakCHARS_AUTO ||| espeakPHONEMES |||
           (if ssml then espeakSSML else 0))] := by
      have h2 := hok
      simp [memStreamExtract, phonemeFlagsMemStream, pyTruthy, pyOrd] at h2
      exact h2.2.symm
    subst hcalls
    rcases List.mem_cons.mp hmem with h | h
    · exact (EngineCall.setPhonemeTrace.injEq _ _).mp h
    · simp at h
  · intro eng ev text c lines calls f hok hmem
    have hcalls : calls =
        List.replicate ((eng.clauseOutputs ev text
            (espeakPHONEMES_IPA ||| (c.toNat <<< 8))).length + 1)
          (EngineCall.textToPhonemes (espeakPHONEMES_IPA ||| (c.toNat <<< 8))) := by
      have h2 := hok
      simp [noStreamExtract, phonemeFlagsNoStream, pyTruthy, pyOrd] at h2
      exact h2.2.symm
    subst hcalls
    have := (List.eq_of_mem_replicate hmem).symm
    exact (EngineCall.textToPhonemes.injEq _ _).mp this.symm

/-- Witness for C9: the flag packed for separator `_` in a concrete
captured-stream extraction is `espeakPHONEMES_IPA ||| (codepoint _ <<< 8)`. -/
theorem c9_witness :
    (24322 : Nat) = espeakPHONEMES_IPA ||| ('_'.toNat <<< 8) :=
  c9_phoneme_flag_packing.2.2.2.1 engFix Option.none ['x'] '_' false
    [['a']] [EngineCall.setPhonemeTrace 24322, EngineCall.synth 256] 24322
    rfl (by simp)

/-- Counterexample to claim C2: with an engine that rejects the voice change,
the util variant's phonemize still succeeds (the failure is only a warning),
but the session's `current_voice` is nevertheless updated to the rejected
voice — it is not "updated only on success". -/
theorem c2_counterexample :
    (exceptIsOk (phonemizeUtil engFail osId stMem Option.none "test".toList
        (some "bad".toList) false Option.none [' '] [] false false
        false).result = true) ∧
    ((phonemizeUtil engFail osId stMem Option.none "test".toList
        (some "bad".toList) false Option.none [' '] [] false false
        false).state.current_voice = some "bad".toList) ∧
    ((phonemizeUtil engFail osId stMem Option.none "test".toList
        (some "bad".toList) false Option.none [' '] [] false false
        false).engineVoice = Option.none) := by
  exact ⟨rfl, rfl, rfl⟩

/-- Counterexample to claim C3: for the voice `/nope`, which is an absolute
path to a file that does not exist, the claimed dispatch rule (voice-by-file
only for existing absolute paths, here with a filesystem on which no path
exists) selects the name form, yet the code issues a voice-by-file engine
call. -/
theorem c3_counterexample :
    ((phonemizeUtil engFix osId stMem Option.none ['x']
        (some "/nope".toList) false Option.none [' '] [] false false
        false).calls.filter isVoiceCall
      = [EngineCall.setVoiceByFile "/nope".toList]) ∧
    specVoiceDispatch (fun _ => false) osId "/nope".toList
      = Sum.inl "/nope".toList := by
  exact ⟨rfl, rfl⟩

/-- Counterexample to claim C6: when the engine's trace starts with a blank
line, the returned string of the legacy variant (the util variant behaves
identically) begins with a space — no final outer trim is applied. -/
theorem c6_counterexample :
    ((phonemizeInit engBlankLine stMem Option.none ['a'] Option.none false
        Option.none [' '] [] false false false).result
      = .ok [' ', 'a']) ∧
    ((phonemizeUtil engBlankLine osId stMem Option.none ['a'] Option.none false
        Option.none [' '] [] false false false).result
      = .ok [' ', 'a']) ∧
    pyIsSpace ' ' = true := by
  exact ⟨rfl, rfl, rfl⟩

theorem utilSetVoice_name_reject (eng : Engine) (os : Os) (st1 : SessionState)
    (ev : Option PyStr) (vs p : PyStr)
    (hexp : os.expanduser vs = some p) (habs : isAbsolutePath p = false)
    (hstat : ¬ eng.voiceNameStatus vs = EE_OK) :
    ∃ st2, utilSetVoice eng os st1 ev (some vs) =
        (st2, ev, [EngineCall.setVoiceByName vs]) ∧
      st2.current_voice = some vs ∧
      st2.default_voice = st1.default_voice ∧
      st2.clause_breakers = st1.clause_breakers ∧
      st2.stream_type = st1.stream_type ∧
      st2.initialized = st1.initialized := by
  unfold utilSetVoice
  cases hc : st1.current_voice with
  | none =>
    refine ⟨{ st1 with current_voice := some vs }, ?_, rfl, rfl, rfl, rfl, rfl⟩
    simp [hexp, habs, hstat]
  | some cv =>
    by_cases hvc : vs = cv
    · subst hvc
      refine ⟨st1, ?_, hc, rfl, rfl, rfl, rfl⟩
      simp [hexp, habs, hstat]
    · refine ⟨{ st1 with current_voice := some vs }, ?_, rfl, rfl, rfl, rfl, rfl⟩
      simp [hexp, habs, hstat, hvc]

/-- Counterexample to claim C7: a phonemize call whose word separator `#` is
not a single space and whose phoneme separator is the pure-whitespace string
consisting of one space is not rejected: it succeeds and issues engine calls. -/
theorem c7_counterexample :
    (exceptIsOk (phonemizeUtil engFix osId stMem Option.none "hi".toList
        Option.none false (some [' ']) ['#'] [] false false
        false).result = true) ∧
    ((phonemizeUtil engFix osId stMem Option.none "hi".toList
        Option.none false (some [' ']) ['#'] [] false false
        false).calls
      = [EngineCall.setPhonemeTrace (espeakPHONEMES_IPA ||| (' '.toNat <<< 8)),
         EngineCall.synth (espeakCHARS_AUTO ||| espeakPHONEMES)]) := by
  exact ⟨rfl, rfl⟩

/-- Claim C2 (amended): in the util variant a rejected engine voice change is
recovered as a non-fatal warning — phonemize still returns a result and the
voice-change call appears in the trace — but the session's `current_voice` is
updated unconditionally before the engine call, so it is NOT left unchanged on
rejection; only the engine's own active voice stays what it was. -/
theorem c2_amended_warning_but_state_updated
    (eng : Engine) (os : Os) (st : SessionState) (ev : Option PyStr)
    (text : PyStr) (voice : Option PyStr) (vs p : PyStr)
    (keep : Bool) (sep : Option PyStr) (ws punct : PyStr) (kl ns : Bool)
    (f1 f2 : Nat)
    (hinit : st.initialized = true)
    (hv : pyOrStr voice st.default_voice = some vs)
    (hexp : os.expanduser vs = some p)
    (habs : isAbsolutePath p = false)
    (hstat : ¬ eng.voiceNameStatus vs = EE_OK)
    (hf1 : phonemeFlagsMemStream sep = .ok f1)
    (hf2 : phonemeFlagsNoStream sep = .ok f2) :
    exceptIsOk (phonemizeUtil eng os st ev text voice keep sep ws punct
        kl ns false).result = true ∧
    (phonemizeUtil eng os st ev text voice keep sep ws punct
        kl ns false).state.current_voice = some vs ∧
    (phonemizeUtil eng os st ev text voice keep sep ws punct
        kl ns false).engineVoice = ev ∧
    (phonemizeUtil eng os st ev text voice keep sep ws punct
        kl ns false).calls.filter isVoiceCall
      = [EngineCall.setVoiceByName vs] := by
  obtain ⟨st2, heq, hcv, hdv, hcb, hstream, hinit2⟩ :=
    utilSetVoice_name_reject eng os { st with initialized := true } ev vs p
      hexp habs hstat
  cases hst : st.stream_type with
  | memory =>
    have hstream2 : st2.stream_type = StreamType.memory := by
      rw [hstream]; exact hst
    refine ⟨?_, ?_, ?_, ?_⟩ <;>
      simp [phonemizeUtil, hinit, hv, heq, hstream2, hcv,
        memStreamExtract, hf1, exceptIsOk, isVoiceCall]
  | none =>
    have hstream2 : st2.stream_type = StreamType.none := by
      rw [hstream]; exact hst
    refine ⟨?_, ?_, ?_, ?_⟩ <;>
      simp [phonemizeUtil, hinit, hv, heq, hstream2, hcv,
        noStreamExtract, hf2, exceptIsOk, isVoiceCall]

/-- Witness for the amended C2 at a concrete rejecting engine. -/
theorem c2_amended_witness :
    exceptIsOk (phonemizeUtil engFail osId stMem Option.none "test".toList
        (some "bad".toList) false Option.none [' '] [] false false
        false).result = true ∧
    (phonemizeUtil engFail osId stMem Option.none "test".toList
        (some "bad".toList) false Option.none [' '] [] false false
        false).state.current_voice = some "bad".toList ∧
    (phonemizeUtil engFail osId stMem Option.none "test".toList
        (some "bad".toList) false Option.none [' '] [] false false
        false).engineVoice = Option.none ∧
    (phonemizeUtil engFail osId stMem Option.none "test".toList
        (some "bad".toList) false Option.none [' '] [] false false
        false).calls.filter isVoiceCall
      = [EngineCall.setVoiceByName "bad".toList] :=
  c2_amended_warning_but_state_updated engFail osId stMem Option.none
    "test".toList (some "bad".toList) "bad".toList "bad".toList false
    Option.none [' '] [] false false espeakPHONEMES_IPA espeakPHONEMES_IPA
    rfl rfl rfl rfl (by decide) rfl rfl

/-- Claim C3 (amended): the util variant's dispatch is decided by path shape
alone — an identifier whose tilde expansion succeeds and is absolute is passed
to the voice-by-file capability (resolved), regardless of whether any such
file exists; every other identifier (expansion failure included) is passed to
the voice-by-name capability; and the legacy variant never issues a
voice-by-file call at all. -/
theorem c3_amended_dispatch_ignores_existence :
    (∀ (eng : Engine) (os : Os) (st1 : SessionState) (ev : Option PyStr)
        (vs p : PyStr),
      os.expanduser vs = some p → isAbsolutePath p = true →
      (utilSetVoice eng os st1 ev (some vs)).2.2 =
        [EngineCall.setVoiceByFile (os.resolve p)]) ∧
    (∀ (eng : Engine) (os : Os) (st1 : SessionState) (ev : Option PyStr)
        (vs p : PyStr),
      os.expanduser vs = some p → isAbsolutePath p = false →
      (utilSetVoice eng os st1 ev (some vs)).2.2 =
        [EngineCall.setVoiceByName vs]) ∧
    (∀ (eng : Engine) (os : Os) (st1 : SessionState) (ev : Option PyStr)
        (vs : PyStr),
      os.expanduser vs = Option.none →
      (utilSetVoice eng os st1 ev (some vs)).2.2 =
        [EngineCall.setVoiceByName vs]) ∧
    (∀ (eng : Engine) (st1 : SessionState) (ev : Option PyStr)
        (v : Option PyStr),
      ((initSetVoice eng st1 ev v).2.2.1).filter isFileVoiceCall = []) := by
  refine ⟨?_, ?_, ?_, ?_⟩
  · intro eng os st1 ev vs p hexp habs
    simp [utilSetVoice, hexp, habs]
    split <;> rfl
  · intro eng os st1 ev vs p hexp habs
    simp [utilSetVoice, hexp, habs]
    split <;> rfl
  · intro eng os st1 ev vs hexp
    simp [utilSetVoice, hexp]
    split <;> rfl
  · intro eng st1 ev v
    cases v with
    | none => rfl
    | some vs =>
      simp only [initSetVoice]
      split
      · rfl
      · split <;> rfl

/-- Witness for the amended C3: an absolute path that exists nowhere is still
dispatched to the voice-by-file capability. -/
theorem c3_amended_witness :
    (utilSetVoice engFix osId stMem Option.none (some "/nope".toList)).2.2 =
      [EngineCall.setVoiceByFile "/nope".toList] :=
  c3_amended_dispatch_ignores_existence.1 engFix osId stMem Option.none
    "/nope".toList "/nope".toList rfl rfl

/-- Claim C6 (amended): no final outer trim is applied; the result is the
word-separator join of the individually stripped clause strings (then
stress-stripping and separator-collapsing).  When stress stripping is off,
the separator is absent, empty or a single character (longer separators error
before this stage), and every clause string strips to non-empty, the returned
string has no leading and no trailing whitespace; a blank clause can leave
edge whitespace (see the counterexample). -/
theorem c6_amended_edge_whitespace
    (ws : PyStr) (sep : Option PyStr) (lines : List PyStr)
    (hsep : sep = Option.none ∨ sep = some [] ∨ ∃ c, sep = some [c])
    (hlines : ∀ l ∈ lines, pyStrip l ≠ []) :
    (∀ a, (finalStages ws false sep lines).head? = some a →
      pyIsSpace a = false) ∧
    (∀ a, (finalStages ws false sep lines).getLast? = some a →
      pyIsSpace a = false) := by
  have hne : ∀ l ∈ lines.map pyStrip, l ≠ [] := by
    intro l hl
    obtain ⟨l', hl', rfl⟩ := List.mem_map.mp hl
    exact hlines l' hl'
  have hHead : ∀ a, (joinSep ws (lines.map pyStrip)).head? = some a →
      pyIsSpace a = false := by
    intro a h
    obtain ⟨l, hl, hh⟩ := joinSep_head?_mem ws (lines.map pyStrip) a hne h
    obtain ⟨l', _, rfl⟩ := List.mem_map.mp hl
    exact head?_pyStrip l' a hh
  have hLast : ∀ a, (joinSep ws (lines.map pyStrip)).getLast? = some a →
      pyIsSpace a = false := by
    intro a h
    obtain ⟨l, hl, hh⟩ := joinSep_getLast?_mem ws (lines.map pyStrip) a hne h
    obtain ⟨l', _, rfl⟩ := List.mem_map.mp hl
    exact getLast?_pyStrip l' a hh
  rcases hsep with rfl | rfl | ⟨c, rfl⟩
  · exact ⟨hHead, hLast⟩
  · exact ⟨hHead, hLast⟩
  · constructor
    · intro a h
      rw [show finalStages ws false (some [c]) lines =
            collapseSep [c] (joinSep ws (lines.map pyStrip)) from rfl,
          collapseSep_head?] at h
      exact hHead a h
    · intro a h
      rw [show finalStages ws false (some [c]) lines =
            collapseSep [c] (joinSep ws (lines.map pyStrip)) from rfl,
          collapseSep_getLast?] at h
      exact hLast a h

/-- Witness for the amended C6 at a concrete non-blank clause list. -/
theorem c6_amended_witness : pyIsSpace 'a' = false :=
  (c6_amended_edge_whitespace [' '] Option.none [['a']] (Or.inl rfl)
    (by decide)).1 'a' rfl

/-- Claim C7 (amended): the separator validation lives in the CLI, not in
phonemize.  The CLI — before constructing any phonemizer and hence before any
engine call — rejects an invocation that supplies a truthy word separator
while the phoneme separator strips to empty (`AssertionError`) or is absent
(`AttributeError`).  phonemize itself performs no such validation: a call with
a non-space word separator and a pure-whitespace single-character phoneme
separator succeeds and issues engine calls. -/
theorem c7_amended_validation_only_in_cli :
    (∀ (v ws : Option PyStr) (p : PyStr),
      pyTruthy v = true → pyTruthy ws = true → pyStrip p = [] →
      cliValidate v ws (some p) = .error .assertionError) ∧
    (∀ (v ws : Option PyStr),
      pyTruthy v = true → pyTruthy ws = true →
      cliValidate v ws Option.none = .error .attributeError) ∧
    (∀ (eng : Engine) (os : Os) (st : SessionState) (ev : Option PyStr)
        (text : PyStr) (keep : Bool) (c : Char) (ws punct : PyStr)
        (kl ns : Bool),
      st.initialized = true → st.default_voice = Option.none →
      st.stream_type = StreamType.memory →
      pyIsSpace c = true → ws ≠ [' '] →
      exceptIsOk (phonemizeUtil eng os st ev text Option.none keep (some [c])
          ws punct kl ns false).result = true ∧
      (phonemizeUtil eng os st ev text Option.none keep (some [c])
          ws punct kl ns false).calls =
        [EngineCall.setPhonemeTrace (espeakPHONEMES_IPA ||| (c.toNat <<< 8)),
         EngineCall.synth (espeakCHARS_AUTO ||| espeakPHONEMES)]) := by
  refine ⟨?_, ?_, ?_⟩
  · intro v ws p hv hws hp
    simp [cliValidate, hv, hws, hp]
  · intro v ws hv hws
    simp [cliValidate, hv, hws]
  · intro eng os st ev text keep c ws punct kl ns hinit hdef hstream hspace hws
    constructor <;>
      simp [phonemizeUtil, utilSetVoice, memStreamExtract, phonemeFlagsMemStream,
        pyOrStr, pyTruthy, pyOrd, hinit, hdef, hstream, exceptIsOk]

/-- Witness for the amended C7: the CLI check rejects a whitespace phoneme
separator combined with a word separator. -/
theorem c7_amended_witness :
    cliValidate (some "en-us".toList) (some ['#']) (some [' ']) =
      .error .assertionError :=
  c7_amended_validation_only_in_cli.1 (some "en-us".toList) (some ['#'])
    [' '] rfl rfl rfl

/-- Claim C8: on text containing no clause-breaker character, phonemize with
`keep_clause_breakers` true and false produce identical outcomes (result,
state, engine voice and calls), in both variants. -/
theorem c8_keep_breakers_vacuous_without_breakers
    (eng : Engine) (os : Os) (st : SessionState) (ev : Option PyStr)
    (text : PyStr) (voice : Option PyStr) (sep : Option PyStr)
    (ws punct : PyStr) (kl ns ssml : Bool)
    (h : ∀ c ∈ text, c ∉ st.clause_breakers) :
    phonemizeUtil eng os st ev text voice true sep ws punct kl ns ssml =
      phonemizeUtil eng os st ev text voice false sep ws punct kl ns ssml ∧
    phonemizeInit eng st ev text voice true sep ws punct kl ns ssml =
      phonemizeInit eng st ev text voice false sep ws punct kl ns ssml := by
  have hf : text.filter (· ∈ st.clause_breakers) = [] :=
    List.filter_eq_nil_iff.mpr (by intro a ha; simpa using h a ha)
  have hm : missingBreakers true st.clause_breakers text =
      missingBreakers false st.clause_breakers text := by
    simp [missingBreakers, hf]
  constructor
  · unfold phonemizeUtil
    rw [hm]
  · unfold phonemizeInit
    rw [hm]

/-- Witness for C8 at breaker-free text. -/
theorem c8_witness :
    phonemizeUtil engFix osId stMem Option.none ['h', 'i'] Option.none true
      Option.none [' '] [] false false false =
      phonemizeUtil engFix osId stMem Option.none ['h', 'i'] Option.none false
        Option.none [' '] [] false false false ∧
    phonemizeInit engFix stMem Option.none ['h', 'i'] Option.none true
      Option.none [' '] [] false false false =
      phonemizeInit engFix stMem Option.none ['h', 'i'] Option.none false
        Option.none [' '] [] false false false :=
  c8_keep_breakers_vacuous_without_breakers engFix osId stMem Option.none
    ['h', 'i'] Option.none Option.none [' '] [] false false false (by decide)

end EP
